import Mathlib

/-!
Shallow embedding of the due-task notification core of the ToDoTelegramBot
repository: the base62 key generator (`backend/services/pk_keygen.py`), the
due-task scanner (`backend/todo/tasks.py`), and the Telegram notification
dispatcher (`backend/services/telegram_notifications.py`), together with
theorems settling the specification claims about them.
-/

namespace ToDoBot

/-! ### Key generator (backend/services/pk_keygen.py) -/

/-- The alphabet `_BASE62_ALPHABET` from pk_keygen.py. -/
def BASE62_ALPHABET : String :=
  "0123456789ABCDEFGHIJKLMNOPQRSTUVWXYZabcdefghijklmnopqrstuvwxyz"

/-- The alphabet as a character list, for indexing. -/
def base62Chars : List Char := BASE62_ALPHABET.data

/-- The character `_BASE62_ALPHABET[d]` (out-of-range defaults are never hit
for digits below 62). -/
def b62Char (d : Nat) : Char := base62Chars.getD d '0'

/-- Fuel-driven little-endian digit extraction mirroring the
`while num > 0: num, rem = divmod(num, 62)` loop of `_b62_encode`; the fuel
argument only guarantees termination and is always taken large enough. -/
def b62DigitsAux : Nat → Nat → List Nat
  | 0, _ => []
  | _ + 1, 0 => []
  | fuel + 1, n + 1 => ((n + 1) % 62) :: b62DigitsAux fuel ((n + 1) / 62)

/-- The little-endian base62 digits of `n` (`chars` before the final
`reverse` in `_b62_encode`). -/
def b62Digits (n : Nat) : List Nat := b62DigitsAux n n

/-- `_b62_encode`: base62 encoding, `0` encodes as the alphabet's first
character `'0'`, no padding. -/
def b62_encode (n : Nat) : String :=
  if n = 0 then "0" else String.mk ((b62Digits n).reverse.map b62Char)

/-- Characters removed by Python's `str.strip()` with no argument. -/
def pyWhitespace : List Char :=
  [' ', '\t', '\n', '\x0b', '\x0c', '\r']

/-- Python's `str.strip()`: drop leading and trailing whitespace. -/
def pyStrip (s : String) : String :=
  String.mk
    (((s.data.dropWhile (fun c => pyWhitespace.contains c)).reverse.dropWhile
        (fun c => pyWhitespace.contains c)).reverse)

/-- `_env_prefix`: read `PK_PREFIX` (default `"ABC"` when unset), strip it,
keep only base62 characters, truncate to 3.  The environment variable is an
explicit `Option String` argument. -/
def env_pfx (pkPrefixVar : Option String) : String :=
  String.mk
    (((pyStrip (pkPrefixVar.getD "ABC")).data.filter
        (fun ch => base62Chars.contains ch)).take 3)

/-- The module state `_last_ms` / `_counter` of pk_keygen.py, read and
written under `_lock`. -/
structure KeygenState where
  last_ms : Nat
  counter : Nat
deriving DecidableEq, Repr

/-- The initial module state: `_last_ms = 0`, `_counter = 0`. -/
def initState : KeygenState := { last_ms := 0, counter := 0 }

/-- The locked read-modify-write step of `generate_pk`: on an unchanged
millisecond the counter increments, otherwise the millisecond is recorded
and the counter resets to 0. -/
def pkStep (now_ms : Nat) (st : KeygenState) : KeygenState :=
  if now_ms = st.last_ms then { st with counter := st.counter + 1 }
  else { last_ms := now_ms, counter := 0 }

/-- `generate_pk(kind)`: validates `kind` (exactly one base62 character),
performs the locked state step at the current millisecond reading `now_ms`,
and returns `prefix + kind + b62(now_ms) + b62(counter)` together with the
updated state.  Python exceptions become `Except.error`. -/
def generate_pk (kind : String) (pkPrefixVar : Option String) (now_ms : Nat)
    (st : KeygenState) : Except String (String × KeygenState) :=
  match kind.data with
  | [c] =>
    if base62Chars.contains c then
      let pfx := env_pfx pkPrefixVar
      let st' := pkStep now_ms st
      .ok (pfx ++ kind ++ b62_encode now_ms ++ b62_encode st'.counter, st')
    else .error "kind must be a base62 char"
  | _ => .error "kind must be exactly 1 char"

/-- The key returned by a call whose post-step state is `st` (after the step
`st.last_ms` is exactly the millisecond reading the call observed). -/
def keyOfState (kind : Char) (pkPrefixVar : Option String)
    (st : KeygenState) : String :=
  env_pfx pkPrefixVar ++ String.mk [kind] ++ b62_encode st.last_ms ++
    b62_encode st.counter

/-- The states observed by a sequence of serialized `generate_pk` calls whose
millisecond readings are given by `clock`. -/
def runStates : List Nat → KeygenState → List KeygenState
  | [], _ => []
  | ms :: rest, st =>
    pkStep ms st :: runStates rest (pkStep ms st)

/-- The keys returned by a sequence of serialized `generate_pk` calls with a
fixed valid `kind`, starting from the initial module state. -/
def runKeys (kind : Char) (pkPrefixVar : Option String)
    (clock : List Nat) : List String :=
  (runStates clock initState).map (keyOfState kind pkPrefixVar)

/-- Strict lexicographic order on the (millisecond, counter) pair. -/
def stLex (a b : KeygenState) : Prop :=
  a.last_ms < b.last_ms ∨ (a.last_ms = b.last_ms ∧ a.counter < b.counter)

/-- Lexicographic order on strings via character order; on base62 strings the
character order coincides with the alphabet-index order. -/
def b62LexLt (s t : String) : Prop := List.Lex (fun a b => a < b) s.data t.data

instance (s t : String) : Decidable (b62LexLt s t) := by
  unfold b62LexLt
  exact List.Lex.decidableRel (fun a b => a < b) s.data t.data

/-! ### Task data and the due-task scanner (backend/todo/tasks.py) -/

/-- `TaskStatus` from backend/todo/models.py. -/
inductive TaskStatus where
  | active
  | done
  | expired
deriving DecidableEq, Repr

/-- The owning user as the scanner sees it: only the (nullable) Telegram
chat identifier matters (`user.telegram_user_id`). -/
structure UserRec where
  telegram_user_id : Option Int
deriving DecidableEq, Repr

/-- A task row as the scanner reads and writes it.  Datetimes are modelled as
integer seconds since the epoch. -/
structure TaskRec where
  title : String
  status : TaskStatus
  due_at : Option Int
  due_notified_at : Option Int
  user : UserRec
deriving DecidableEq, Repr

/-- `NOTIFICATION_LOOKAHEAD_HOURS` from tasks.py. -/
def NOTIFICATION_LOOKAHEAD_HOURS : Int := 24

/-- `now + timedelta(hours=NOTIFICATION_LOOKAHEAD_HOURS)` in seconds. -/
def notification_window_end (now : Int) : Int :=
  now + NOTIFICATION_LOOKAHEAD_HOURS * 3600

/-- The candidate filter of `notify_upcoming_tasks`: status active, `due_at`
set, `due_notified_at` null, `due_at` in `(now, window_end]`, and the owning
user has a Telegram chat id (one conjunct per ORM filter keyword). -/
def isCandidate (now : Int) (t : TaskRec) : Bool :=
  decide (t.status = TaskStatus.active)
    && t.due_at.isSome
    && t.due_notified_at.isNone
    && t.due_at.any (fun d => decide (now < d))
    && t.due_at.any (fun d => decide (d ≤ notification_window_end now))
    && t.user.telegram_user_id.isSome

/-- The candidate condition as the specification words it, for comparison
with the filter translated from the code. -/
def specCandidate (now : Int) (t : TaskRec) : Prop :=
  t.status = TaskStatus.active ∧
    t.due_notified_at = none ∧
    (∃ d, t.due_at = some d ∧ now < d ∧ d ≤ notification_window_end now) ∧
    (∃ cid, t.user.telegram_user_id = some cid)

/-- The loop body of `notify_upcoming_tasks` for one selected task: the
defensive re-check of the chat id, the dispatch attempt (`send t = true`
models `send_plaintext_notification` returning, `false` models it raising),
and on success the write `due_notified_at = timezone.now()` (the save-time
clock is the oracle `stamp`).  Returns the updated row and the increment of
`processed_count`. -/
def processTask (send : TaskRec → Bool) (stamp : TaskRec → Int)
    (t : TaskRec) : TaskRec × Nat :=
  match t.user.telegram_user_id with
  | none => (t, 0)
  | some _ =>
    if send t then ({ t with due_notified_at := some (stamp t) }, 1)
    else (t, 0)

/-- What one scanner run does to one task row: rows not selected by the
candidate query are untouched. -/
def scanTask (now : Int) (send : TaskRec → Bool) (stamp : TaskRec → Int)
    (t : TaskRec) : TaskRec × Nat :=
  if isCandidate now t then processTask send stamp t else (t, 0)

/-- One full run of `notify_upcoming_tasks` at time `now` over a task set:
the rows afterwards and the emitted `processed_count`. -/
def runScan (now : Int) (send : TaskRec → Bool) (stamp : TaskRec → Int)
    (tasks : List TaskRec) : List TaskRec × Nat :=
  (tasks.map (fun t => (scanTask now send stamp t).1),
   (tasks.map (fun t => (scanTask now send stamp t).2)).sum)

/-- Field names declared on the `Task` model in backend/todo/models.py
(lines 98-105): id, user, title, description, created_at, due_at, status,
categories. -/
def taskModelFields : List String :=
  ["id", "user", "title", "description", "created_at", "due_at", "status",
   "categories"]

/-- Field lookups named by the scanner's candidate query filter in
`notify_upcoming_tasks` (tasks.py lines 44-51). -/
def scannerFilterFields : List String :=
  ["status", "due_at", "due_notified_at", "user__telegram_user_id"]

/-- The `update_fields` list of the scanner's save call (tasks.py line 77). -/
def scannerUpdateFields : List String := ["due_notified_at"]

/-! ### Notification dispatcher
(backend/services/telegram_notifications.py) -/

/-- `MAX_RETRIES` from telegram_notifications.py. -/
def MAX_RETRIES : Nat := 5

/-- `BASE_RETRY_DELAY_SECONDS`. -/
def BASE_RETRY_DELAY_SECONDS : Nat := 5

/-- `MAX_RETRY_DELAY_SECONDS`. -/
def MAX_RETRY_DELAY_SECONDS : Nat := 60

/-- `_compute_retry_delay`: `min(base * 2 ** retry_index, cap)`. -/
def compute_retry_delay (retry_index : Nat) : Nat :=
  min (BASE_RETRY_DELAY_SECONDS * 2 ^ retry_index) MAX_RETRY_DELAY_SECONDS

/-- What the provider interaction does on one attempt, abstracting the
network: a timeout, another transport error, or an HTTP response with a
status code, a flag for whether the body parses as JSON, and the value of
its `ok` field. -/
inductive ProviderBehavior where
  | timeout
  | transportError
  | httpResponse (status : Nat) (validJson : Bool) (okField : Bool)
deriving DecidableEq, Repr

/-- The reason carried by a raised `TelegramNotificationError`. -/
inductive TgReason where
  | httpStatus (status : Nat)
  | invalidPayload
  | reportedNotOk
deriving DecidableEq, Repr

/-- The exceptions `send_message` can raise: `httpx.TimeoutException` and
other `httpx.RequestError`s are re-raised, everything else is wrapped in
`TelegramNotificationError`. -/
inductive SendException where
  | timeoutExc
  | transportExc
  | notificationError (r : TgReason)
deriving DecidableEq, Repr

/-- `response.raise_for_status()` succeeds exactly on 2xx statuses. -/
def is2xx (status : Nat) : Bool := decide (200 ≤ status) && decide (status < 300)

/-- `TelegramNotificationClient.send_message`: POST, `raise_for_status`
(any non-2xx becomes a `TelegramNotificationError`), JSON parse (a
`ValueError` becomes a `TelegramNotificationError`), then the `ok` check
(false becomes a `TelegramNotificationError`). -/
def send_message (b : ProviderBehavior) : Except SendException Bool :=
  match b with
  | .timeout => .error .timeoutExc
  | .transportError => .error .transportExc
  | .httpResponse status validJson okField =>
    if is2xx status then
      if validJson then
        if okField then .ok true
        else .error (.notificationError .reportedNotOk)
      else .error (.notificationError .invalidPayload)
    else .error (.notificationError (.httpStatus status))

/-- Membership in `RETRYABLE_EXCEPTIONS = (httpx.RequestError,
TelegramNotificationError)`; `httpx.TimeoutException` is a subclass of
`httpx.RequestError`. -/
def isRetryable : SendException → Bool
  | .timeoutExc => true
  | .transportExc => true
  | .notificationError _ => true

/-- Outcome of one queue execution of `send_telegram_message_task`. -/
inductive AttemptResult where
  | delivered
  | retryScheduled (countdown : Nat) (e : SendException)
  | maxRetriesExceeded (e : SendException)
  | permanentConfigError
  | uncaughtException (e : SendException)
deriving DecidableEq, Repr

/-- One execution of `send_telegram_message_task` with `retries` prior
retries: a client-configuration failure raises `RuntimeError`; an exception
matching `RETRYABLE_EXCEPTIONS` leads to `self.retry(countdown =
_compute_retry_delay(retries))`, which schedules a retry while
`retries < max_retries` and otherwise fails permanently; any other
exception would propagate. -/
def send_telegram_message_task (configOk : Bool) (retries : Nat)
    (b : ProviderBehavior) : AttemptResult :=
  if configOk then
    match send_message b with
    | .ok _ => .delivered
    | .error e =>
      if isRetryable e then
        if retries < MAX_RETRIES then
          .retryScheduled (compute_retry_delay retries) e
        else .maxRetriesExceeded e
      else .uncaughtException e
  else .permanentConfigError

/-- Modelled from the spec: the Celery work queue that runs
`send_telegram_message_task` is not part of the repository; per the spec's
work-queue contract a task invocation carries an attempt counter the retry
policy can read, a scheduled retry re-executes the task with the counter
incremented, and after exhausting retries the task fails permanently.
`driveQueue` drives executions with behaviors indexed by the attempt
counter; the fuel bounds recursion and is always at least the number of
executions the policy allows.  Returns (number of executions, scheduled
countdowns, delivered flag). -/
def driveQueue (behaviors : Nat → ProviderBehavior) :
    Nat → Nat → Nat × List Nat × Bool
  | 0, _ => (0, [], false)
  | fuel + 1, retries =>
    match send_telegram_message_task true retries (behaviors retries) with
    | .delivered => (1, [], true)
    | .retryScheduled d _ =>
      let r := driveQueue behaviors fuel (retries + 1)
      (r.1 + 1, d :: r.2.1, r.2.2)
    | .maxRetriesExceeded _ => (1, [], false)
    | .permanentConfigError => (1, [], false)
    | .uncaughtException _ => (1, [], false)

/-- A full delivery: queue executions from retry counter 0 with enough fuel
for the initial attempt plus `MAX_RETRIES` retries. -/
def delivery (behaviors : Nat → ProviderBehavior) : Nat × List Nat × Bool :=
  driveQueue behaviors (MAX_RETRIES + 1) 0

/-! ### Helper lemmas about the scanner -/

/-- The candidate filter translated from the code agrees with the
specification's wording of the candidate condition. -/
theorem isCandidate_iff (now : Int) (t : TaskRec) :
    isCandidate now t = true ↔ specCandidate now t := by
  obtain ⟨title, status, due, dna, ⟨tg⟩⟩ := t
  cases due <;> cases dna <;> cases tg <;>
    simp [isCandidate, specCandidate, Option.any] <;>
    tauto

/-- A row whose `due_notified_at` is set is never selected again. -/
theorem isCandidate_marked_false (now : Int) (t : TaskRec) (x : Int) :
    isCandidate now { t with due_notified_at := some x } = false := by
  simp [isCandidate]

/-- A single scanner step reports at most one processed notification. -/
theorem scanTask_snd_le_one (now : Int) (send : TaskRec → Bool)
    (stamp : TaskRec → Int) (t : TaskRec) :
    (scanTask now send stamp t).2 ≤ 1 := by
  unfold scanTask processTask
  split
  · split
    · simp
    · split <;> simp
  · simp

/-- Anatomy of a successful scanner step: the row was a candidate, the
dispatch succeeded, the field was null before, and the row leaves with
`due_notified_at` stamped. -/
theorem scanTask_of_success (now : Int) (send : TaskRec → Bool)
    (stamp : TaskRec → Int) (t : TaskRec)
    (h : (scanTask now send stamp t).2 = 1) :
    isCandidate now t = true ∧ send t = true ∧ t.due_notified_at = none ∧
      (scanTask now send stamp t).1
        = { t with due_notified_at := some (stamp t) } := by
  by_cases hc : isCandidate now t = true
  · obtain ⟨hstat, hnotif, ⟨d, hdue, h1, h2⟩, ⟨cid, htg⟩⟩ :=
      (isCandidate_iff now t).mp hc
    by_cases hs : send t = true
    · exact ⟨hc, hs, hnotif, by simp [scanTask, hc, processTask, htg, hs]⟩
    · rw [Bool.not_eq_true] at hs
      simp [scanTask, hc, processTask, htg, hs] at h
  · simp [scanTask, hc] at h


/-! ### Claims about the scanner -/

/-- C2: a task is selected as a notification candidate iff its status is
active, its due timestamp is set and lies strictly in
`(now, now + 24h]`, its `due_notified_at` is null, and its owner has a
Telegram chat id; a task due exactly at `now` is excluded, one due exactly
at `now + 24h` is included, one due at `now + 24h + 1s` is excluded. -/
theorem scanner_candidate_query_correct (now : Int) (t : TaskRec) :
    (isCandidate now t = true ↔ specCandidate now t)
    ∧ (t.due_at = some now → isCandidate now t = false)
    ∧ (t.status = TaskStatus.active → t.due_notified_at = none →
        t.user.telegram_user_id.isSome = true →
        t.due_at = some (notification_window_end now) →
        isCandidate now t = true)
    ∧ (t.due_at = some (notification_window_end now + 1) →
        isCandidate now t = false) := by
  refine ⟨isCandidate_iff now t, ?_, ?_, ?_⟩
  · intro hdue
    apply Bool.eq_false_iff.mpr
    intro hc
    obtain ⟨_, _, ⟨d, hd, h1, _⟩, _⟩ := (isCandidate_iff now t).mp hc
    rw [hdue, Option.some.injEq] at hd
    omega
  · intro hstat hnotif htg hdue
    rcases Option.isSome_iff_exists.mp htg with ⟨cid, hcid⟩
    apply (isCandidate_iff now t).mpr
    refine ⟨hstat, hnotif, ⟨notification_window_end now, hdue, ?_, le_rfl⟩,
      ⟨cid, hcid⟩⟩
    simp only [notification_window_end, NOTIFICATION_LOOKAHEAD_HOURS]
    omega
  · intro hdue
    apply Bool.eq_false_iff.mpr
    intro hc
    obtain ⟨_, _, ⟨d, hd, _, h2⟩, _⟩ := (isCandidate_iff now t).mp hc
    rw [hdue, Option.some.injEq] at hd
    omega

/-- Witness for C2 at concrete boundary instants. -/
theorem scanner_candidate_query_correct_witness :
    isCandidate 0
      { title := "b", status := TaskStatus.active,
        due_at := some (notification_window_end 0), due_notified_at := none,
        user := { telegram_user_id := some 7 } } = true
    ∧ isCandidate 0
      { title := "b", status := TaskStatus.active, due_at := some 0,
        due_notified_at := none,
        user := { telegram_user_id := some 7 } } = false
    ∧ isCandidate 0
      { title := "b", status := TaskStatus.active,
        due_at := some (notification_window_end 0 + 1),
        due_notified_at := none,
        user := { telegram_user_id := some 7 } } = false :=
  ⟨(scanner_candidate_query_correct 0 _).2.2.1 rfl rfl rfl rfl,
   (scanner_candidate_query_correct 0 _).2.1 rfl,
   (scanner_candidate_query_correct 0 _).2.2.2 rfl⟩

/-- C1: across two back-to-back scanner runs over an unchanged task set,
each task is successfully notified at most once; a task the first run
successfully processed has its `due_notified_at` moved from null to
non-null, is no longer selected by the second run's candidate query, and is
left untouched by the second run; within a run every row is processed
pointwise (the run maps each row independently). -/
theorem scanner_at_most_once_across_runs (now1 now2 : Int)
    (send1 send2 : TaskRec → Bool) (stamp1 stamp2 : TaskRec → Int)
    (t : TaskRec) :
    ((scanTask now1 send1 stamp1 t).2
        + (scanTask now2 send2 stamp2 (scanTask now1 send1 stamp1 t).1).2 ≤ 1)
    ∧ ((scanTask now1 send1 stamp1 t).2 = 1 →
        t.due_notified_at = none
        ∧ (scanTask now1 send1 stamp1 t).1.due_notified_at = some (stamp1 t)
        ∧ isCandidate now2 (scanTask now1 send1 stamp1 t).1 = false
        ∧ scanTask now2 send2 stamp2 (scanTask now1 send1 stamp1 t).1
            = ((scanTask now1 send1 stamp1 t).1, 0))
    ∧ (∀ tasks : List TaskRec, ∀ i : Nat, tasks.get? i = some t →
        (runScan now1 send1 stamp1 tasks).1.get? i
          = some (scanTask now1 send1 stamp1 t).1) := by
  have hmain : (scanTask now1 send1 stamp1 t).2 = 1 →
      t.due_notified_at = none
      ∧ (scanTask now1 send1 stamp1 t).1.due_notified_at = some (stamp1 t)
      ∧ isCandidate now2 (scanTask now1 send1 stamp1 t).1 = false
      ∧ scanTask now2 send2 stamp2 (scanTask now1 send1 stamp1 t).1
          = ((scanTask now1 send1 stamp1 t).1, 0) := by
    intro h1
    obtain ⟨hc, hs, hnone, hfst⟩ := scanTask_of_success now1 send1 stamp1 t h1
    have hmark : isCandidate now2 (scanTask now1 send1 stamp1 t).1 = false := by
      rw [hfst]
      exact isCandidate_marked_false _ _ _
    refine ⟨hnone, by rw [hfst], hmark, ?_⟩
    generalize hX : (scanTask now1 send1 stamp1 t).1 = X at hmark ⊢
    unfold scanTask
    rw [hmark]
    simp
  refine ⟨?_, hmain, ?_⟩
  · rcases Nat.lt_or_ge (scanTask now1 send1 stamp1 t).2 1 with h | h
    · have h0 : (scanTask now1 send1 stamp1 t).2 = 0 := by omega
      rw [h0]
      simpa using scanTask_snd_le_one now2 send2 stamp2 _
    · have h1 : (scanTask now1 send1 stamp1 t).2 = 1 :=
        le_antisymm (scanTask_snd_le_one now1 send1 stamp1 t) h
      obtain ⟨_, _, _, h4⟩ := hmain h1
      rw [h1, h4]
      simp
  · intro tasks i hi
    rw [List.get?_eq_getElem?] at hi
    rw [List.get?_eq_getElem?]
    simp [runScan, List.getElem?_map, hi]

/-- Witness for C1 at a concrete task that the first run processes. -/
theorem scanner_at_most_once_across_runs_witness :
    (isCandidate 60 (scanTask 0 (fun _ => true) (fun _ => 50)
        { title := "w", status := TaskStatus.active, due_at := some 100,
          due_notified_at := none,
          user := { telegram_user_id := some 1 } }).1 = false)
    ∧ ((runScan 0 (fun _ => true) (fun _ => 50)
        [{ title := "w", status := TaskStatus.active, due_at := some 100,
           due_notified_at := none,
           user := { telegram_user_id := some 1 } }]).1.get? 0
        = some (scanTask 0 (fun _ => true) (fun _ => 50)
          { title := "w", status := TaskStatus.active, due_at := some 100,
            due_notified_at := none,
            user := { telegram_user_id := some 1 } }).1) :=
  ⟨((scanner_at_most_once_across_runs 0 60 (fun _ => true) (fun _ => true)
      (fun _ => 50) (fun _ => 99)
      { title := "w", status := TaskStatus.active, due_at := some 100,
        due_notified_at := none,
        user := { telegram_user_id := some 1 } }).2.1 (by decide)).2.2.1,
   (scanner_at_most_once_across_runs 0 60 (fun _ => true) (fun _ => true)
      (fun _ => 50) (fun _ => 99)
      { title := "w", status := TaskStatus.active, due_at := some 100,
        due_notified_at := none,
        user := { telegram_user_id := some 1 } }).2.2
      [{ title := "w", status := TaskStatus.active, due_at := some 100,
         due_notified_at := none,
         user := { telegram_user_id := some 1 } }] 0 rfl⟩

/-- C9: a candidate task whose dispatch raises is left unchanged with
`due_notified_at` still null, contributes nothing to the processed count,
and the rest of the batch before and after it is processed as usual. -/
theorem scanner_dispatch_failure_skips_and_continues (now : Int)
    (send : TaskRec → Bool) (stamp : TaskRec → Int) (t : TaskRec)
    (hc : isCandidate now t = true) (hf : send t = false) :
    scanTask now send stamp t = (t, 0)
    ∧ t.due_notified_at = none
    ∧ (∀ l1 l2 : List TaskRec,
        runScan now send stamp (l1 ++ t :: l2)
          = ((runScan now send stamp l1).1 ++ t :: (runScan now send stamp l2).1,
             (runScan now send stamp l1).2 + (runScan now send stamp l2).2)) := by
  obtain ⟨hstat, hnotif, _, ⟨cid, htg⟩⟩ := (isCandidate_iff now t).mp hc
  have heq : scanTask now send stamp t = (t, 0) := by
    simp [scanTask, hc, processTask, htg, hf]
  refine ⟨heq, hnotif, ?_⟩
  intro l1 l2
  unfold runScan
  simp [List.map_append, List.sum_append, heq]

/-- Witness for C9 at a concrete failing candidate. -/
theorem scanner_dispatch_failure_skips_and_continues_witness :
    scanTask 0 (fun _ => false) (fun _ => 50)
      { title := "f", status := TaskStatus.active, due_at := some 100,
        due_notified_at := none, user := { telegram_user_id := some 2 } }
      = ({ title := "f", status := TaskStatus.active, due_at := some 100,
           due_notified_at := none,
           user := { telegram_user_id := some 2 } }, 0) :=
  (scanner_dispatch_failure_skips_and_continues 0 (fun _ => false)
    (fun _ => 50)
    { title := "f", status := TaskStatus.active, due_at := some 100,
      due_notified_at := none, user := { telegram_user_id := some 2 } }
    (by decide) rfl).1

/-- C3: the scanner's candidate query and its save call both name the field
`due_notified_at`, but the `Task` model in backend/todo/models.py declares
no such field, so the code cannot satisfy the claimed invariant as written:
the field the Scanner filters on and writes is missing from the model. -/
theorem task_model_lacks_due_notified_at :
    "due_notified_at" ∈ scannerFilterFields
    ∧ "due_notified_at" ∈ scannerUpdateFields
    ∧ "due_notified_at" ∉ taskModelFields := by decide

/-! ### Helper lemmas about the dispatcher -/

/-- Every exception `send_message` can raise matches
`RETRYABLE_EXCEPTIONS = (httpx.RequestError, TelegramNotificationError)`. -/
theorem isRetryable_eq_true (e : SendException) : isRetryable e = true := by
  cases e <;> rfl

/-- The queue never executes a task more often than its fuel allows. -/
theorem driveQueue_fst_le (behaviors : Nat → ProviderBehavior) :
    ∀ fuel retries, (driveQueue behaviors fuel retries).1 ≤ fuel := by
  intro fuel
  induction fuel with
  | zero => intro retries; simp [driveQueue]
  | succ fuel ih =>
    intro retries
    unfold driveQueue
    split <;> simp
    exact ih (retries + 1)

/-! ### Claims about the dispatcher -/

/-- C4 as stated fails: a plain 404 response (non-2xx and not a transient
server error) and an invalid-JSON body are both wrapped in
`TelegramNotificationError`, which is listed in `RETRYABLE_EXCEPTIONS`, so
the task schedules a retry instead of failing immediately. -/
theorem dispatcher_nonretryable_claim_fails :
    send_message (ProviderBehavior.httpResponse 404 true true)
      = .error (.notificationError (.httpStatus 404))
    ∧ send_telegram_message_task true 0 (ProviderBehavior.httpResponse 404 true true)
      = .retryScheduled 5 (.notificationError (.httpStatus 404))
    ∧ send_message (ProviderBehavior.httpResponse 200 false false)
      = .error (.notificationError .invalidPayload)
    ∧ send_telegram_message_task true 0 (ProviderBehavior.httpResponse 200 false false)
      = .retryScheduled 5 (.notificationError .invalidPayload) :=
  ⟨rfl, rfl, rfl, rfl⟩

/-- C4 amended: every exception raised by `send_message` — timeout,
transport error, any non-2xx HTTP status, invalid JSON, or `ok = false` —
is retryable and leads to a scheduled retry while retries remain; only a
client-configuration failure (missing bot token) fails at once without a
retry. -/
theorem dispatcher_all_send_errors_retried :
    (∀ b e, send_message b = .error e → isRetryable e = true)
    ∧ (∀ b e r, send_message b = .error e → r < MAX_RETRIES →
        send_telegram_message_task true r b
          = .retryScheduled (compute_retry_delay r) e)
    ∧ (∀ r b, send_telegram_message_task false r b
        = .permanentConfigError) := by
  refine ⟨fun b e _ => isRetryable_eq_true e, ?_, fun r b => rfl⟩
  intro b e r hb hr
  simp [send_telegram_message_task, hb, isRetryable_eq_true, hr]

/-- Witness for C4's amended claim at a concrete timeout failure. -/
theorem dispatcher_all_send_errors_retried_witness :
    isRetryable SendException.timeoutExc = true
    ∧ send_telegram_message_task true 0 ProviderBehavior.timeout
      = .retryScheduled (compute_retry_delay 0) SendException.timeoutExc
    ∧ send_telegram_message_task false 3 ProviderBehavior.timeout
      = .permanentConfigError :=
  ⟨dispatcher_all_send_errors_retried.1 ProviderBehavior.timeout
      SendException.timeoutExc rfl,
   dispatcher_all_send_errors_retried.2.1 ProviderBehavior.timeout
      SendException.timeoutExc 0 rfl (by decide),
   dispatcher_all_send_errors_retried.2.2 3 ProviderBehavior.timeout⟩

/-- C5 as stated fails on the attempt count: with `max_retries = 5` an
always-failing delivery is executed 6 times in total (the initial attempt
plus 5 retries), not at most 5. -/
theorem dispatcher_five_attempts_claim_fails :
    delivery (fun _ => ProviderBehavior.transportError)
      = (6, [5, 10, 20, 40, 60], false)
    ∧ ¬ ((6 : Nat) ≤ 5) := by decide

/-- C5 amended: every scheduled retry waits
`min(5 * 2 ^ retries, 60)` seconds where `retries` is the zero-based count
of retries already performed, retries are scheduled only while
`retries < MAX_RETRIES`, a delivery is executed at most `MAX_RETRIES + 1 =
6` times, and a delivery whose every attempt fails runs exactly 6 attempts
with backoff trace `[5, 10, 20, 40, 60]` and then fails permanently. -/
theorem dispatcher_retry_backoff_policy :
    (∀ r b d e, send_telegram_message_task true r b = .retryScheduled d e →
        d = min (BASE_RETRY_DELAY_SECONDS * 2 ^ r) MAX_RETRY_DELAY_SECONDS
        ∧ r < MAX_RETRIES)
    ∧ (∀ behaviors, (delivery behaviors).1 ≤ MAX_RETRIES + 1)
    ∧ (∀ (behaviors : Nat → ProviderBehavior) (es : Nat → SendException),
        (∀ n, send_message (behaviors n) = .error (es n)) →
        delivery behaviors = (6, [5, 10, 20, 40, 60], false)) := by
  refine ⟨?_, fun behaviors => driveQueue_fst_le behaviors (MAX_RETRIES + 1) 0, ?_⟩
  · intro r b d e h
    cases hsend : send_message b with
    | ok v =>
      have hstep : send_telegram_message_task true r b
          = AttemptResult.delivered := by
        unfold send_telegram_message_task
        rw [hsend]
        simp
      rw [hstep] at h
      exact absurd h (by simp)
    | error e2 =>
      have hstep : send_telegram_message_task true r b
          = (if r < MAX_RETRIES then
              AttemptResult.retryScheduled (compute_retry_delay r) e2
            else AttemptResult.maxRetriesExceeded e2) := by
        unfold send_telegram_message_task
        rw [hsend]
        simp [isRetryable_eq_true]
      rw [hstep] at h
      by_cases hr : r < MAX_RETRIES
      · rw [if_pos hr] at h
        injection h with h1 h2
        rw [← h1]
        exact ⟨rfl, hr⟩
      · rw [if_neg hr] at h
        exact absurd h (by simp)
  · intro behaviors es h
    simp [delivery, MAX_RETRIES, driveQueue, send_telegram_message_task,
      h 0, h 1, h 2, h 3, h 4, h 5, isRetryable_eq_true, compute_retry_delay,
      BASE_RETRY_DELAY_SECONDS, MAX_RETRY_DELAY_SECONDS]

/-- Witness for C5's amended claim: an always-timing-out delivery. -/
theorem dispatcher_retry_backoff_policy_witness :
    delivery (fun _ => ProviderBehavior.timeout) = (6, [5, 10, 20, 40, 60], false)
    ∧ ((5 : Nat)
        = min (BASE_RETRY_DELAY_SECONDS * 2 ^ 0) MAX_RETRY_DELAY_SECONDS
      ∧ 0 < MAX_RETRIES) :=
  ⟨dispatcher_retry_backoff_policy.2.2 (fun _ => ProviderBehavior.timeout)
      (fun _ => SendException.timeoutExc) (fun _ => rfl),
   dispatcher_retry_backoff_policy.1 0 ProviderBehavior.timeout 5
      SendException.timeoutExc (by decide)⟩

/-! ### Helper lemmas about base62 encoding -/

/-- With enough fuel the digit loop computes exactly `Nat.digits 62`. -/
theorem b62DigitsAux_eq : ∀ fuel n, n ≤ fuel → b62DigitsAux fuel n = Nat.digits 62 n := by
  intro fuel
  induction fuel with
  | zero =>
    intro n hn
    have h0 : n = 0 := Nat.le_zero.mp hn
    subst h0
    simp [b62DigitsAux]
  | succ fuel ih =>
    intro n hn
    match n with
    | 0 => simp [b62DigitsAux]
    | m + 1 =>
      have hdiv : (m + 1) / 62 < m + 1 := Nat.div_lt_self (Nat.succ_pos m) (by norm_num)
      have hfuel : (m + 1) / 62 ≤ fuel := by omega
      show ((m + 1) % 62) :: b62DigitsAux fuel ((m + 1) / 62) = Nat.digits 62 (m + 1)
      rw [ih ((m + 1) / 62) hfuel]
      rw [Nat.digits_def' (by norm_num : (1 : ℕ) < 62) (Nat.succ_pos m)]

/-- The digit loop computes `Nat.digits 62`. -/
theorem b62Digits_eq (n : Nat) : b62Digits n = Nat.digits 62 n :=
  b62DigitsAux_eq n n le_rfl

/-- Alphabet indexing is injective below 62. -/
theorem b62Char_inj_fin : ∀ d1 d2 : Fin 62, b62Char d1.val = b62Char d2.val → d1 = d2 := by decide

/-- Alphabet indexing is strictly monotone below 62 (the base62 alphabet is
listed in increasing character order). -/
theorem b62Char_mono_fin : ∀ d1 d2 : Fin 62, d1 < d2 → b62Char d1.val < b62Char d2.val := by decide

/-- Alphabet indexing is injective below 62, `Nat` form. -/
theorem b62Char_inj (d1 d2 : Nat) (h1 : d1 < 62) (h2 : d2 < 62)
    (h : b62Char d1 = b62Char d2) : d1 = d2 := by
  have := b62Char_inj_fin ⟨d1, h1⟩ ⟨d2, h2⟩ h
  exact congrArg Fin.val this

/-- Alphabet indexing is strictly monotone below 62, `Nat` form. -/
theorem b62Char_mono (d1 d2 : Nat) (h1 : d1 < 62) (h2 : d2 < 62)
    (h : d1 < d2) : b62Char d1 < b62Char d2 :=
  b62Char_mono_fin ⟨d1, h1⟩ ⟨d2, h2⟩ h

/-- Mapping the alphabet over digit lists below 62 is injective. -/
theorem map_b62Char_inj : ∀ l1 l2 : List Nat, (∀ d ∈ l1, d < 62) →
    (∀ d ∈ l2, d < 62) → l1.map b62Char = l2.map b62Char → l1 = l2 := by
  intro l1
  induction l1 with
  | nil =>
    intro l2 _ _ h
    cases l2 with
    | nil => rfl
    | cons y ys => simp at h
  | cons x xs ih =>
    intro l2 h1 h2 h
    cases l2 with
    | nil => simp at h
    | cons y ys =>
      simp only [List.map_cons, List.cons.injEq] at h
      have hx : x = y := b62Char_inj x y (h1 x (by simp)) (h2 y (by simp)) h.1
      have hxs : xs = ys :=
        ih ys (fun d hd => h1 d (by simp [hd])) (fun d hd => h2 d (by simp [hd])) h.2
      rw [hx, hxs]

/-- Character data of a nonzero encoding. -/
theorem b62_encode_ne_zero_data (n : Nat) (hn : n ≠ 0) :
    (b62_encode n).data = (Nat.digits 62 n).reverse.map b62Char := by
  simp [b62_encode, hn, b62Digits_eq]

/-- Character data of the zero encoding. -/
theorem b62_encode_zero_data : (b62_encode 0).data = ['0'] := rfl

/-- A nonzero number never encodes to the single character `'0'`. -/
theorem b62_data_ne_zero_char (n : Nat) (hn : n ≠ 0)
    (h : (Nat.digits 62 n).reverse.map b62Char = ['0']) : False := by
  have hlen : (Nat.digits 62 n).length = 1 := by
    have := congrArg List.length h
    simpa using this
  obtain ⟨d, hd⟩ := List.length_eq_one.mp hlen
  have hdlt : d < 62 := Nat.digits_lt_base (by norm_num) (by rw [hd]; simp)
  rw [hd] at h
  simp at h
  have hd0 : d = 0 := b62Char_inj d 0 hdlt (by norm_num) (by simpa using h)
  have := Nat.ofDigits_digits 62 n
  rw [hd, hd0] at this
  simp [Nat.ofDigits_singleton] at this
  exact hn this.symm

/-- The base62 encoding is injective. -/
theorem b62_encode_inj (m n : Nat) (h : b62_encode m = b62_encode n) : m = n := by
  have hchars : ∀ k : Nat, ∀ d ∈ Nat.digits 62 k, d < 62 := by
    intro k d hd
    exact Nat.digits_lt_base (by norm_num) hd
  have hdata := congrArg String.data h
  by_cases hm : m = 0 <;> by_cases hn : n = 0
  · rw [hm, hn]
  · exfalso
    rw [hm, b62_encode_zero_data, b62_encode_ne_zero_data n hn] at hdata
    exact b62_data_ne_zero_char n hn hdata.symm
  · exfalso
    rw [hn, b62_encode_zero_data, b62_encode_ne_zero_data m hm] at hdata
    exact b62_data_ne_zero_char m hm hdata
  · rw [b62_encode_ne_zero_data m hm, b62_encode_ne_zero_data n hn] at hdata
    have hmap : (Nat.digits 62 m).map b62Char = (Nat.digits 62 n).map b62Char := by
      have := congrArg List.reverse hdata
      simpa [List.map_reverse] using this
    have hdig : Nat.digits 62 m = Nat.digits 62 n :=
      map_b62Char_inj _ _ (hchars m) (hchars n) hmap
    have := congrArg (Nat.ofDigits 62) hdig
    rwa [Nat.ofDigits_digits, Nat.ofDigits_digits] at this

/-- The nonzero encoding as a `String.mk` of digit characters. -/
theorem b62_encode_ne_zero (n : Nat) (hn : n ≠ 0) :
    b62_encode n = String.mk ((Nat.digits 62 n).reverse.map b62Char) := by
  simp [b62_encode, hn, b62Digits_eq]

/-- Length of a nonzero encoding is the digit count. -/
theorem b62_encode_length (n : Nat) (hn : n ≠ 0) :
    (b62_encode n).length = (Nat.digits 62 n).length := by
  rw [b62_encode_ne_zero n hn, String.length_mk]
  simp

/-- Numbers below `62 ^ k` encode to at most `k` characters. -/
theorem b62_encode_length_le (n k : Nat) (hk : 0 < k) (h : n < 62 ^ k) :
    (b62_encode n).length ≤ k := by
  by_cases hn : n = 0
  · subst hn
    exact hk
  · rw [b62_encode_length n hn]
    rw [Nat.digits_len 62 n (by norm_num) hn]
    have := (Nat.lt_pow_iff_log_lt (by norm_num : 1 < 62) hn).mp h
    omega

/-- Equal-length digit strings compare lexicographically the way their
values compare numerically. -/
theorem lex_of_ofDigits_lt (l1 : List Nat) : ∀ l2 : List Nat,
    l1.length = l2.length → (∀ d ∈ l1, d < 62) → (∀ d ∈ l2, d < 62) →
    Nat.ofDigits 62 l1 < Nat.ofDigits 62 l2 →
    List.Lex (fun a b : Char => a < b)
      (l1.reverse.map b62Char) (l2.reverse.map b62Char) := by
  induction l1 using List.reverseRecOn with
  | nil =>
    intro l2 hlen _ _ hlt
    have h2 : l2 = [] := List.length_eq_zero.mp hlen.symm
    subst h2
    simp [Nat.ofDigits] at hlt
  | append_singleton xs x ih =>
    intro l2 hlen h1 h2 hlt
    rcases List.eq_nil_or_concat' l2 with h | ⟨ys, y, rfl⟩
    · subst h
      simp at hlen
    · have hxy_len : xs.length = ys.length := by simpa using hlen
      rw [Nat.ofDigits_append, Nat.ofDigits_append] at hlt
      simp only [Nat.ofDigits_singleton] at hlt
      have hx : x < 62 := h1 x (by simp)
      have hy : y < 62 := h2 y (by simp)
      have hbound2 : Nat.ofDigits 62 ys < 62 ^ ys.length :=
        Nat.ofDigits_lt_base_pow_length (by norm_num)
          (fun d hd => h2 d (by simp [hd]))
      simp only [List.reverse_append, List.reverse_singleton,
        List.singleton_append, List.map_cons]
      rcases lt_trichotomy x y with hcase | hcase | hcase
      · exact List.Lex.rel (b62Char_mono x y hx hy hcase)
      · subst hcase
        apply List.Lex.cons
        apply ih ys hxy_len (fun d hd => h1 d (by simp [hd]))
          (fun d hd => h2 d (by simp [hd]))
        rw [hxy_len] at hlt
        exact Nat.lt_of_add_lt_add_right hlt
      · exfalso
        rw [hxy_len] at hlt
        have hstep : 62 ^ ys.length * (y + 1) ≤ 62 ^ ys.length * x :=
          Nat.mul_le_mul_left _ hcase
        have hcontra : Nat.ofDigits 62 ys + 62 ^ ys.length * y
            < Nat.ofDigits 62 xs + 62 ^ ys.length * x := by
          calc Nat.ofDigits 62 ys + 62 ^ ys.length * y
              < 62 ^ ys.length + 62 ^ ys.length * y :=
                Nat.add_lt_add_right hbound2 _
            _ = 62 ^ ys.length * (y + 1) := by ring
            _ ≤ 62 ^ ys.length * x := hstep
            _ ≤ Nat.ofDigits 62 xs + 62 ^ ys.length * x := Nat.le_add_left _ _
        exact lt_asymm hcontra hlt

/-- Equal-length base62 encodings of ordered numbers are lexicographically
ordered the same way. -/
theorem b62LexLt_of_lt_of_length_eq (a b : Nat) (hab : a < b)
    (hlen : (b62_encode a).length = (b62_encode b).length) :
    b62LexLt (b62_encode a) (b62_encode b) := by
  have hb : b ≠ 0 := by omega
  by_cases ha : a = 0
  · subst ha
    have hlb : (b62_encode b).length = 1 := by
      rw [← hlen]
      rfl
    have hdl : (Nat.digits 62 b).length = 1 := by
      rw [← b62_encode_length b hb]
      exact hlb
    obtain ⟨d, hd⟩ := List.length_eq_one.mp hdl
    have hdlt : d < 62 := Nat.digits_lt_base (by norm_num) (by rw [hd]; simp)
    have hbd : d = b := by
      have := Nat.ofDigits_digits 62 b
      rw [hd, Nat.ofDigits_singleton] at this
      exact this
    have hdpos : 0 < d := by omega
    unfold b62LexLt
    rw [b62_encode_zero_data, b62_encode_ne_zero_data b hb, hd]
    simp only [List.reverse_singleton, List.map_cons, List.map_nil]
    apply List.Lex.rel
    have hmono : b62Char 0 < b62Char d := b62Char_mono 0 d (by norm_num) hdlt hdpos
    exact hmono
  · unfold b62LexLt
    rw [b62_encode_ne_zero_data a ha, b62_encode_ne_zero_data b hb]
    apply lex_of_ofDigits_lt
    · rw [b62_encode_length a ha, b62_encode_length b hb] at hlen
      exact hlen
    · intro d hd
      exact Nat.digits_lt_base (by norm_num) hd
    · intro d hd
      exact Nat.digits_lt_base (by norm_num) hd
    · rw [Nat.ofDigits_digits, Nat.ofDigits_digits]
      exact hab

/-! ### Helper lemmas about the generator state -/

/-- The pair order is transitive. -/
theorem stLex_trans (a b c : KeygenState) (h1 : stLex a b) (h2 : stLex b c) :
    stLex a c := by
  unfold stLex at h1 h2 ⊢
  omega

/-- The pair order is irreflexive. -/
theorem stLex_irrefl (a : KeygenState) (h : stLex a a) : False := by
  unfold stLex at h
  omega

/-- After a step the recorded millisecond is the reading just observed. -/
theorem pkStep_last_ms (ms : Nat) (st : KeygenState) :
    (pkStep ms st).last_ms = ms := by
  unfold pkStep
  split
  · simp [*]
  · rfl

/-- A step at a reading at least the recorded millisecond strictly
increases the pair. -/
theorem pkStep_stLex (ms : Nat) (st : KeygenState) (h : st.last_ms ≤ ms) :
    stLex st (pkStep ms st) := by
  unfold pkStep stLex
  split
  · right
    constructor
    · rfl
    · simp
  · left
    simp only
    omega

/-- One state per call. -/
theorem runStates_length (clock : List Nat) :
    ∀ st, (runStates clock st).length = clock.length := by
  induction clock with
  | nil => intro st; rfl
  | cons ms rest ih => intro st; simp [runStates, ih]

/-- Every state of a run records a millisecond that was actually read. -/
theorem runStates_last_ms_mem (clock : List Nat) :
    ∀ st s, s ∈ runStates clock st → s.last_ms ∈ clock := by
  induction clock with
  | nil => intro st s hs; simp [runStates] at hs
  | cons ms rest ih =>
    intro st s hs
    simp only [runStates, List.mem_cons] at hs
    rcases hs with rfl | hs
    · simp [pkStep_last_ms]
    · simp [ih (pkStep ms st) s hs]

/-- Under a nondecreasing clock every later state is strictly above the
starting state. -/
theorem runStates_stLex_all (clock : List Nat) :
    ∀ st, List.Chain (fun a b => a ≤ b) st.last_ms clock →
      ∀ s ∈ runStates clock st, stLex st s := by
  induction clock with
  | nil => intro st _ s hs; simp [runStates] at hs
  | cons ms rest ih =>
    intro st hch s hs
    cases hch with
    | cons hle hch' =>
      simp only [runStates, List.mem_cons] at hs
      rcases hs with rfl | hs
      · exact pkStep_stLex ms st hle
      · have h1 : stLex st (pkStep ms st) := pkStep_stLex ms st hle
        have h2 : stLex (pkStep ms st) s := by
          apply ih (pkStep ms st) _ s hs
          rw [pkStep_last_ms]
          exact hch'
        exact stLex_trans _ _ _ h1 h2

/-- Under a nondecreasing clock the run's states are pairwise strictly
increasing. -/
theorem runStates_pairwise (clock : List Nat) :
    ∀ st, List.Chain (fun a b => a ≤ b) st.last_ms clock →
      List.Pairwise stLex (runStates clock st) := by
  induction clock with
  | nil => intro st _; simp [runStates]
  | cons ms rest ih =>
    intro st hch
    cases hch with
    | cons hle hch' =>
      have hch'' : List.Chain (fun a b => a ≤ b) (pkStep ms st).last_ms rest := by
        rw [pkStep_last_ms]
        exact hch'
      refine List.Pairwise.cons ?_ (ih (pkStep ms st) hch'')
      intro s hs
      exact runStates_stLex_all rest (pkStep ms st) hch'' s hs

/-- The state at position `i` records the reading at position `i`. -/
theorem runStates_get?_last_ms (clock : List Nat) :
    ∀ st i, ((runStates clock st).get? i).map KeygenState.last_ms
      = clock.get? i := by
  induction clock with
  | nil => intro st i; rfl
  | cons ms rest ih =>
    intro st i
    cases i with
    | zero => simp [runStates, pkStep_last_ms]
    | succ i => exact ih (pkStep ms st) i

/-- Keys built from states with equal-length millisecond encodings are
injective in the state. -/
theorem keyOfState_inj (kind : Char) (env : Option String)
    (a b : KeygenState)
    (hlen : (b62_encode a.last_ms).length = (b62_encode b.last_ms).length)
    (h : keyOfState kind env a = keyOfState kind env b) : a = b := by
  unfold keyOfState at h
  have hdata := congrArg String.data h
  simp only [String.data_append, List.append_assoc] at hdata
  have h1 := List.append_cancel_left hdata
  have h2 := List.append_cancel_left h1
  have hlen' : (b62_encode a.last_ms).data.length
      = (b62_encode b.last_ms).data.length := hlen
  obtain ⟨hts, hcnt⟩ := List.append_inj h2 hlen'
  have hms : a.last_ms = b.last_ms := b62_encode_inj _ _ (String.ext hts)
  have hc : a.counter = b.counter := b62_encode_inj _ _ (String.ext hcnt)
  cases a
  cases b
  simp_all

/-! ### Claims about the key generator -/

/-- C10: a call whose millisecond reading differs from the stored one in
either direction — including a backwards clock — resets the counter to 0
and overwrites the stored millisecond; the counter increments only when
the reading is exactly equal.  Consequently a clock that revisits a
previously seen millisecond reproduces a key, as the concrete revisiting
run `[5, 7, 5]` shows. -/
theorem keygen_step_reset_semantics :
    (∀ (now_ms : Nat) (st : KeygenState),
      (now_ms ≠ st.last_ms →
        pkStep now_ms st = { last_ms := now_ms, counter := 0 })
      ∧ (now_ms = st.last_ms →
        pkStep now_ms st = { last_ms := st.last_ms, counter := st.counter + 1 }))
    ∧ ¬ (runKeys 'T' none [5, 7, 5]).Nodup := by
  constructor
  · intro now_ms st
    constructor
    · intro h
      unfold pkStep
      rw [if_neg h]
    · intro h
      unfold pkStep
      rw [if_pos h]
  · decide

/-- Witness for C10 covering a backwards jump, a forward jump, and a tie. -/
theorem keygen_step_reset_semantics_witness :
    pkStep 5 { last_ms := 7, counter := 2 } = { last_ms := 5, counter := 0 }
    ∧ pkStep 9 { last_ms := 7, counter := 2 } = { last_ms := 9, counter := 0 }
    ∧ pkStep 7 { last_ms := 7, counter := 2 } = { last_ms := 7, counter := 3 } :=
  ⟨(keygen_step_reset_semantics.1 5 { last_ms := 7, counter := 2 }).1 (by decide),
   (keygen_step_reset_semantics.1 9 { last_ms := 7, counter := 2 }).1 (by decide),
   (keygen_step_reset_semantics.1 7 { last_ms := 7, counter := 2 }).2 rfl⟩

set_option maxRecDepth 40000 in
/-- C6 as stated fails: even under a serialized, monotone clock, 63 calls
during millisecond 1 followed by one call at millisecond 63 return the same
identifier twice, because the unpadded timestamp and counter encodings
concatenate ambiguously (`"1" + "10"` = `"11" + "0"`). -/
theorem keygen_uniqueness_claim_fails :
    (runKeys 'T' none (List.replicate 63 1 ++ [63])).get? 62 = some "ABCT110"
    ∧ (runKeys 'T' none (List.replicate 63 1 ++ [63])).get? 63 = some "ABCT110"
    ∧ ¬ (runKeys 'T' none (List.replicate 63 1 ++ [63])).Nodup := by decide

/-- C6 amended: all keys of a serialized run are pairwise distinct provided
the millisecond readings are nondecreasing and all readings encode to
base62 strings of one common length. -/
theorem keygen_unique_under_aligned_clock (kind : Char) (env : Option String)
    (clock : List Nat) (L : Nat)
    (hchain : List.Chain (fun a b => a ≤ b) 0 clock)
    (hlen : ∀ ms ∈ clock, (b62_encode ms).length = L) :
    (runKeys kind env clock).Nodup := by
  unfold runKeys
  have hpw : List.Pairwise stLex (runStates clock initState) :=
    runStates_pairwise clock initState hchain
  have hne : List.Pairwise
      (fun a b => keyOfState kind env a ≠ keyOfState kind env b)
      (runStates clock initState) := by
    apply List.Pairwise.imp_of_mem ?_ hpw
    intro a b ha hb hab hkey
    have haL := hlen a.last_ms (runStates_last_ms_mem clock initState a ha)
    have hbL := hlen b.last_ms (runStates_last_ms_mem clock initState b hb)
    have hab2 : a = b :=
      keyOfState_inj kind env a b (by rw [haL, hbL]) hkey
    subst hab2
    exact stLex_irrefl a hab
  exact List.pairwise_map.mpr hne

/-- Witness for C6's amended claim: three calls under an aligned clock. -/
theorem keygen_unique_under_aligned_clock_witness :
    (runKeys 'T' none [100, 100, 101]).Nodup :=
  keygen_unique_under_aligned_clock 'T' none [100, 100, 101] 2
    (List.Chain.cons (by norm_num) (List.Chain.cons (by norm_num)
      (List.Chain.cons (by norm_num) List.Chain.nil)))
    (by decide)

set_option maxRecDepth 40000 in
/-- C7 as stated fails: within one millisecond the 62nd and 63rd calls have
counter suffixes `"z"` and `"10"`, and `"10"` is lexicographically smaller
than `"z"`, so the later suffix is not lexicographically greater. -/
theorem keygen_lex_monotonicity_claim_fails :
    (runStates (List.replicate 63 5) initState).get? 61
      = some { last_ms := 5, counter := 61 }
    ∧ (runStates (List.replicate 63 5) initState).get? 62
      = some { last_ms := 5, counter := 62 }
    ∧ b62_encode 61 = "z"
    ∧ b62_encode 62 = "10"
    ∧ ¬ b62LexLt (b62_encode 61) (b62_encode 62)
    ∧ b62LexLt (b62_encode 62) (b62_encode 61) := by decide

/-- C7 amended: under a nondecreasing clock, if calls `i < j` observe the
same millisecond reading then the later counter is strictly larger, and
the later counter suffix is lexicographically greater whenever the two
suffixes have the same length (growing to a longer suffix, e.g. `"z"` to
`"10"`, breaks plain lexicographic order). -/
theorem keygen_counter_monotone_same_ms (clock : List Nat) (i j m : Nat)
    (hchain : List.Chain (fun a b => a ≤ b) 0 clock)
    (hij : i < j)
    (hi : clock.get? i = some m) (hj : clock.get? j = some m) :
    ∃ si sj, (runStates clock initState).get? i = some si
      ∧ (runStates clock initState).get? j = some sj
      ∧ si.counter < sj.counter
      ∧ ((b62_encode si.counter).length = (b62_encode sj.counter).length →
          b62LexLt (b62_encode si.counter) (b62_encode sj.counter)) := by
  have hpw := runStates_pairwise clock initState hchain
  have hmi := runStates_get?_last_ms clock initState i
  have hmj := runStates_get?_last_ms clock initState j
  rw [hi] at hmi
  rw [hj] at hmj
  cases hgi : (runStates clock initState).get? i with
  | none =>
    rw [hgi] at hmi
    simp at hmi
  | some si =>
    cases hgj : (runStates clock initState).get? j with
    | none =>
      rw [hgj] at hmj
      simp at hmj
    | some sj =>
      rw [hgi] at hmi
      rw [hgj] at hmj
      simp at hmi hmj
      obtain ⟨hi_lt, hget_i⟩ := List.get?_eq_some.mp hgi
      obtain ⟨hj_lt, hget_j⟩ := List.get?_eq_some.mp hgj
      have hlt : stLex si sj := by
        have := (List.pairwise_iff_get.mp hpw) ⟨i, hi_lt⟩ ⟨j, hj_lt⟩
          (Fin.mk_lt_mk.mpr hij)
        rwa [hget_i, hget_j] at this
      have hcount : si.counter < sj.counter := by
        unfold stLex at hlt
        omega
      exact ⟨si, sj, rfl, rfl, hcount,
        fun hl => b62LexLt_of_lt_of_length_eq _ _ hcount hl⟩

/-- Witness for C7's amended claim: three same-millisecond calls. -/
theorem keygen_counter_monotone_same_ms_witness :
    ∃ si sj, (runStates [100, 100, 100] initState).get? 1 = some si
      ∧ (runStates [100, 100, 100] initState).get? 2 = some sj
      ∧ si.counter < sj.counter
      ∧ ((b62_encode si.counter).length = (b62_encode sj.counter).length →
          b62LexLt (b62_encode si.counter) (b62_encode sj.counter)) :=
  keygen_counter_monotone_same_ms [100, 100, 100] 1 2 100
    (List.Chain.cons (by norm_num) (List.Chain.cons (by norm_num)
      (List.Chain.cons (by norm_num) List.Chain.nil)))
    (by decide) (by decide) (by decide)

/-- C8 as stated fails on the length bound: nothing in `generate_pk` caps
the key length (the module's `_MAX_LEN = 26` is never used), so a
millisecond reading of `62 ^ 22` yields a 28-character key. -/
theorem keygen_max_length_claim_fails :
    (generate_pk "T" none (62 ^ 22) { last_ms := 0, counter := 0 }).toOption.map
        (fun p => p.1.length) = some 28
    ∧ ¬ ((28 : Nat) ≤ 26) := by decide

/-- C8 amended: every key returned by a valid call is exactly the
concatenation of the sanitized environment prefix (at most 3 base62
characters, default `"ABC"`), the one-character kind, the unpadded base62
millisecond encoding and the unpadded base62 counter encoding (zero
encoding as `'0'`); the total length is at most 26 whenever the millisecond
value is below `62 ^ 14` and the counter below `62 ^ 8` (it is not bounded
unconditionally). -/
theorem keygen_key_format (kind : String) (c : Char) (env : Option String)
    (ms : Nat) (st : KeygenState)
    (hkind : kind.data = [c]) (hc : base62Chars.contains c = true) :
    generate_pk kind env ms st
      = .ok (env_pfx env ++ kind ++ b62_encode ms
          ++ b62_encode (pkStep ms st).counter, pkStep ms st)
    ∧ (env_pfx env).length ≤ 3
    ∧ (∀ ch ∈ (env_pfx env).data, base62Chars.contains ch = true)
    ∧ env_pfx none = "ABC"
    ∧ b62_encode 0 = "0"
    ∧ (ms < 62 ^ 14 → (pkStep ms st).counter < 62 ^ 8 →
        (env_pfx env ++ kind ++ b62_encode ms
          ++ b62_encode (pkStep ms st).counter).length ≤ 26) := by
  have hp3 : (env_pfx env).length ≤ 3 := by
    unfold env_pfx
    rw [String.length_mk]
    simp [List.length_take]
  have hkind1 : kind.length = 1 := by
    show kind.data.length = 1
    rw [hkind]
    rfl
  refine ⟨?_, hp3, ?_, rfl, rfl, ?_⟩
  · unfold generate_pk
    rw [hkind]
    simp [hc]
    exact List.mem_of_elem_eq_true hc
  · intro ch hch
    have hch' : ch ∈ ((pyStrip (env.getD "ABC")).data.filter
        (fun ch => base62Chars.contains ch)).take 3 := hch
    have h1 := List.mem_of_mem_take hch'
    exact List.of_mem_filter h1
  · intro h1 h2
    rw [String.length_append, String.length_append, String.length_append]
    have l1 := b62_encode_length_le ms 14 (by norm_num) h1
    have l2 := b62_encode_length_le ((pkStep ms st).counter) 8 (by norm_num) h2
    omega

/-- Witness for C8's amended claim at a realistic millisecond value. -/
theorem keygen_key_format_witness :
    generate_pk "T" none 1700000000000 { last_ms := 0, counter := 0 }
      = .ok (env_pfx none ++ "T" ++ b62_encode 1700000000000
          ++ b62_encode (pkStep 1700000000000 { last_ms := 0, counter := 0 }).counter,
          pkStep 1700000000000 { last_ms := 0, counter := 0 })
    ∧ (env_pfx none ++ "T" ++ b62_encode 1700000000000
        ++ b62_encode (pkStep 1700000000000 { last_ms := 0, counter := 0 }).counter).length
        ≤ 26 :=
  ⟨(keygen_key_format "T" 'T' none 1700000000000
      { last_ms := 0, counter := 0 } rfl rfl).1,
   (keygen_key_format "T" 'T' none 1700000000000
      { last_ms := 0, counter := 0 } rfl rfl).2.2.2.2.2
      (by norm_num) (by decide)⟩

end ToDoBot
